import Mathlib

/-!
Verification of the hostel mess attendance application.

The definitions below are a shallow embedding of the repository's data
model and client operations:

* the SQL schema (migration `20260128140315…`) gives the `attendance_status`
  and `app_role` enums, the `attendance` table with its `UNIQUE(user_id, date)`
  constraint, the `user_roles` table with its `UNIQUE(user_id, role)`
  constraint, and the row-level-security policies;
* `StudentDashboard.markAttendance` performs an upsert keyed on
  `(user_id, date)`;
* `ManageAttendance.markAttendance` performs a check-then-update-or-insert
  and accepts the client-side status value `not_taken` in addition to the
  three enum values;
* `Reports` sorts and exports attendance records and computes the
  not-marked student list;
* `session.ts` validates the locally stored session token.
-/

namespace Hostel

/-- The database enum `attendance_status` from the migration:
`CREATE TYPE public.attendance_status AS ENUM ('present', 'absent', 'leave')`. -/
inductive AttStatus
  | present
  | absent
  | leave
deriving DecidableEq, Repr

/-- The status values accepted by `ManageAttendance.markAttendance`:
`status: 'present' | 'absent' | 'leave' | 'not_taken'`. -/
inductive MarkStatus
  | present
  | absent
  | leave
  | not_taken
deriving DecidableEq, Repr

/-- Coercion of a client-side status value into the database enum
`attendance_status`: the three enum labels are accepted, any other
string (in particular `not_taken`) is rejected by the database. -/
def attendanceStatusOfMark : MarkStatus → Option AttStatus
  | .present => some .present
  | .absent => some .absent
  | .leave => some .leave
  | .not_taken => none

/-- The string rendering of a client-side status, as interpolated into
the success toast `Attendance marked as ${status}`. -/
def markStatusText : MarkStatus → String
  | .present => "present"
  | .absent => "absent"
  | .leave => "leave"
  | .not_taken => "not_taken"

/-- A row of the `attendance` table (identity and timestamp columns
omitted; they play no role in the claims). -/
structure AttendanceRow where
  user_id : String
  date : String
  status : AttStatus
deriving DecidableEq, Repr

/-- The `(user_id, date)` key test used by both marking operations
(`.eq('user_id', …).eq('date', …)` and `onConflict: 'user_id,date'`). -/
def rowMatches (uid date : String) (r : AttendanceRow) : Bool :=
  r.user_id = uid && r.date = date

/-- The schema invariant `UNIQUE(user_id, date)` on the `attendance`
table: no two rows share a user id and a date. -/
def attendanceUnique (t : List AttendanceRow) : Prop :=
  t.Pairwise fun a b => ¬(a.user_id = b.user_id ∧ a.date = b.date)

instance (t : List AttendanceRow) : Decidable (attendanceUnique t) :=
  List.instDecidablePairwise t

/-- `StudentDashboard.markAttendance`: upsert of `(user_id, date, status)`
with `onConflict: 'user_id,date'`.  On conflict the existing row's status
is replaced, otherwise a fresh row is inserted. -/
def upsertAttendance (t : List AttendanceRow) (uid date : String) (s : AttStatus) :
    List AttendanceRow :=
  if t.any (rowMatches uid date) then
    t.map fun r => if rowMatches uid date r then { r with status := s } else r
  else
    t ++ [{ user_id := uid, date := date, status := s }]

/-- The write submitted by `ManageAttendance.markAttendance`: the payload
carries the client-side status, which may be `not_taken`. -/
structure AttendanceWrite where
  user_id : String
  date : String
  status : MarkStatus
deriving DecidableEq, Repr

/-- The payload built by `ManageAttendance.markAttendance` for a student
and date (`{ user_id: studentId, date: dateStr, status }`). -/
def adminMarkRequest (studentId dateStr : String) (status : MarkStatus) : AttendanceWrite :=
  { user_id := studentId, date := dateStr, status := status }

/-- Database-side effect of `ManageAttendance.markAttendance`: the status
is first checked against the `attendance_status` enum (the database
rejects any value outside it), then the code's check-then-update-or-insert
runs: if a row with the `(user_id, date)` key exists it is updated via
`.update({status}).eq('user_id', …).eq('date', …)`, otherwise a new row is
inserted. -/
def applyAdminMark (t : List AttendanceRow) (w : AttendanceWrite) :
    Except Unit (List AttendanceRow) :=
  match attendanceStatusOfMark w.status with
  | none => .error ()
  | some s =>
    if t.any (rowMatches w.user_id w.date) then
      .ok (t.map fun r => if rowMatches w.user_id w.date r then { r with status := s } else r)
    else
      .ok (t ++ [{ user_id := w.user_id, date := w.date, status := s }])

/-- The database enum `app_role` from the migration:
`CREATE TYPE public.app_role AS ENUM ('super_admin', 'admin', 'student')`. -/
inductive AppRole
  | super_admin
  | admin
  | student
deriving DecidableEq, Repr

/-- A row of the `user_roles` table (identity and timestamp columns
omitted). -/
structure RoleRow where
  user_id : String
  role : AppRole
deriving DecidableEq, Repr

/-- The schema constraint `UNIQUE(user_id, role)` on `user_roles`: no two
rows share both their user id and their role. -/
def roleRowsUnique (t : List RoleRow) : Prop :=
  t.Pairwise fun a b => ¬(a.user_id = b.user_id ∧ a.role = b.role)

instance (t : List RoleRow) : Decidable (roleRowsUnique t) :=
  List.instDecidablePairwise t

/-- Insertion into `user_roles` under the `UNIQUE(user_id, role)`
constraint: the insert is rejected (`none`) exactly when a row with the
same `(user_id, role)` pair already exists. -/
def insertRole (t : List RoleRow) (uid : String) (r : AppRole) : Option (List RoleRow) :=
  if t.any (fun row => row.user_id = uid && row.role = r) then none
  else some (t ++ [{ user_id := uid, role := r }])

/-- `useAuth.fetchUserRole`: `select('role').eq('user_id', userId).single()`.
`.single()` succeeds exactly when the filtered result has one row; on zero
or several rows it reports an error and the hook returns `null`. -/
def fetchUserRole (t : List RoleRow) (uid : String) : Option AppRole :=
  match t.filter (fun row => row.user_id = uid) with
  | [row] => some row.role
  | _ => none

/-- Result of rendering a role-gated page: either the page's own content
or the `<Navigate to="/dashboard" replace />` redirect. -/
inductive PageView
  | content
  | redirectDashboard
deriving DecidableEq, Repr

/-- `ManageUsers`: `if (role !== 'super_admin') return <Navigate to="/dashboard" replace />`. -/
def manageUsersView (role : Option AppRole) : PageView :=
  if role ≠ some .super_admin then .redirectDashboard else .content

/-- `ManageAttendance`: `if (role !== 'super_admin') return <Navigate to="/dashboard" replace />`. -/
def manageAttendanceView (role : Option AppRole) : PageView :=
  if role ≠ some .super_admin then .redirectDashboard else .content

/-- `Reports`: `if (role !== 'super_admin' && role !== 'admin') return <Navigate to="/dashboard" replace />`. -/
def reportsView (role : Option AppRole) : PageView :=
  if role ≠ some .super_admin ∧ role ≠ some .admin then .redirectDashboard else .content

/-- `StudentAttendance`: `if (role !== 'student') return <Navigate to="/dashboard" replace />`. -/
def studentAttendanceView (role : Option AppRole) : PageView :=
  if role ≠ some .student then .redirectDashboard else .content

/-- The `disabled` condition of each attendance option button in
`StudentDashboard`:
`isLoading !== null || (todayStatus !== null && todayStatus !== option.status)`. -/
def attendanceOptionDisabled (loading : Option AttStatus) (todayStatus : Option AttStatus)
    (opt : AttStatus) : Bool :=
  loading.isSome || (todayStatus.isSome && todayStatus != some opt)

/-- Outcome of `StudentDashboard.oneTimeFillPresent`. -/
inductive FillOutcome
  | refused
  | marksPresent
deriving DecidableEq, Repr

/-- `StudentDashboard.oneTimeFillPresent`: `if (!user || todayStatus)` it
shows an informational toast and returns without marking; otherwise it
calls `markAttendance('present')`. -/
def oneTimeFillPresent (hasUser : Bool) (todayStatus : Option AttStatus) : FillOutcome :=
  if !hasUser || todayStatus.isSome then .refused else .marksPresent

/-- The row-level-security policy `"Students can update own attendance"`:
`FOR UPDATE USING (user_id = auth.uid())`.  The predicate sees only the
row's `user_id`; the row's current status does not occur in it. -/
def studentUpdatePolicy (authUid : String) (row : AttendanceRow) : Bool :=
  row.user_id = authUid

/-- A toast notification as produced by `useToast` calls; `destructive`
models `variant: 'destructive'`. -/
structure ToastMsg where
  title : String
  description : String
  destructive : Bool
deriving DecidableEq, Repr

/-- Success or failure of an awaited database call, as observed by a
handler (`error` non-null, or a thrown error caught by `catch`). -/
inductive DbOutcome
  | ok
  | failed
deriving DecidableEq, Repr

/-- The `students` list entries held by `ManageAttendance`
(`interface Student`). -/
structure StudentEntry where
  id : String
  email : String
  full_name : String
  attendance_status : Option MarkStatus
deriving DecidableEq, Repr

/-- Effect of `ManageAttendance.markAttendance` on the locally held UI
state: when the database call fails the `catch` branch shows a destructive
toast and `setStudents` is never called; on success the matching entry's
status is replaced and a success toast is shown. -/
def adminMarkAttendance (students : List StudentEntry) (studentId : String)
    (status : MarkStatus) (outcome : DbOutcome) : List StudentEntry × ToastMsg :=
  match outcome with
  | .failed =>
    (students, { title := "Error", description := "Failed to mark attendance", destructive := true })
  | .ok =>
    (students.map fun s => if s.id = studentId then { s with attendance_status := some status } else s,
     { title := "Success", description := "Attendance marked as " ++ markStatusText status,
       destructive := false })

/-- The string rendering of a database status, as interpolated into the
student success toast `Marked as ${status} for today.`. -/
def attStatusText : AttStatus → String
  | .present => "present"
  | .absent => "absent"
  | .leave => "leave"

/-- Effect of `StudentDashboard.markAttendance` on the locally held
`todayStatus`: on error only a destructive toast is shown; on success
`setTodayStatus(status)` runs and a success toast is shown. -/
def studentMarkAttendance (todayStatus : Option AttStatus) (status : AttStatus)
    (outcome : DbOutcome) : Option AttStatus × ToastMsg :=
  match outcome with
  | .failed =>
    (todayStatus,
     { title := "Error", description := "Failed to mark attendance. Please try again.",
       destructive := true })
  | .ok =>
    (some status,
     { title := "Success", description := "Marked as " ++ attStatusText status ++ " for today.",
       destructive := false })

/-- `Array.prototype.join(sep)`: the empty array joins to the empty
string, otherwise the elements are concatenated with `sep` between
consecutive elements. -/
def jsJoin (sep : String) : List String → String
  | [] => ""
  | x :: xs => xs.foldl (fun acc y => acc ++ sep ++ y) x

/-- A fetched attendance record as used by `Reports.downloadReport`
(`a.profiles.full_name`, `a.profiles.email`, `a.status`). -/
structure ReportRow where
  full_name : String
  email : String
  status : String
deriving DecidableEq, Repr

/-- `Reports.downloadReport` CSV construction:
`[headers, ...rows].map(row => row.join(',')).join('\n')` with
`headers = ['Name', 'Email', 'Status']` and each row
`[a.profiles.full_name, a.profiles.email, a.status]`. -/
def downloadReportCsv (attendance : List ReportRow) : String :=
  let headers := ["Name", "Email", "Status"]
  let rows := attendance.map fun a => [a.full_name, a.email, a.status]
  jsJoin "\n" ((headers :: rows).map (jsJoin ","))

/-- `Reports.downloadReport` filename:
`attendance-${format(date, 'yyyy-MM-dd')}.csv`, with `dateStr` standing
for the formatted selected date. -/
def downloadReportFilename (dateStr : String) : String :=
  "attendance-" ++ dateStr ++ ".csv"

/-- Stated from the spec, for comparison with `downloadReportCsv`: one
CSV line per record holding its full name, email and status joined by
commas. -/
def csvRowOfRecord (a : ReportRow) : String :=
  a.full_name ++ "," ++ a.email ++ "," ++ a.status

/-- Stated from the spec, for comparison with `downloadReportCsv`: the
header line `Name,Email,Status` followed by one line per record in list
order, lines joined by newlines. -/
def csvSpec (attendance : List ReportRow) : String :=
  attendance.foldl (fun acc a => acc ++ "\n" ++ csvRowOfRecord a) "Name,Email,Status"

/-- The `statusOrder` key of `Reports.fetchAttendance`:
`{ absent: 0, present: 1, leave: 2 }` with `?? 99` for any other status. -/
def statusOrder (s : String) : Nat :=
  if s = "absent" then 0
  else if s = "present" then 1
  else if s = "leave" then 2
  else 99

/-- The sort in `Reports.fetchAttendance`:
`attendanceReports.sort((a, b) => statusOrder[a.status] - statusOrder[b.status])`,
modelled as a stable sort by the `statusOrder` key. -/
def sortReports (l : List ReportRow) : List ReportRow :=
  l.mergeSort fun a b => statusOrder a.status ≤ statusOrder b.status

/-- A student entry of `studentsData` in `Reports.fetchAttendance`. -/
structure StudentRef where
  user_id : String
  full_name : String
  email : String
deriving DecidableEq, Repr

/-- An attendance record fetched for the selected date in
`Reports.fetchAttendance`. -/
structure AttendanceFetched where
  id : String
  date : String
  status : String
  user_id : String
deriving DecidableEq, Repr

/-- `Reports.fetchAttendance` not-marked computation:
`markedUserIds = new Set(data.map(a => a.user_id))` and
`studentsData.filter(s => !markedUserIds.has(s.user_id))`. -/
def notMarkedStudents (studentsData : List StudentRef) (attData : List AttendanceFetched) :
    List StudentRef :=
  studentsData.filter fun s => !(attData.any fun a => a.user_id = s.user_id)

/-- A JavaScript number as `session.ts` consumes it: `NaN`, an infinity,
or a finite value.  Every finite IEEE-754 double is an exact rational, so
finite values are carried as rationals; comparing two finite doubles
compares their exact values, so the rational order is the double order on
represented values. -/
inductive JsNum
  | nan
  | posInf
  | negInf
  | num (q : ℚ)

/-- JavaScript falsiness of a number: exactly `NaN` and zero are falsy. -/
def JsNum.isFalsy : JsNum → Bool
  | .nan => true
  | .num q => decide (q = 0)
  | _ => false

/-- The comparison `Date.now() > expiresAt` of `session.ts`, with `now` an
integer count of milliseconds: every comparison against `NaN` is false,
and the infinities compare as in IEEE-754. -/
def jsGtNow (now : Int) : JsNum → Bool
  | .nan => false
  | .posInf => false
  | .negInf => true
  | .num q => decide ((now : ℚ) > q)

/-- A JSON value, as produced by `JSON.parse` (JSON cannot contain
`undefined` or functions; a numeric literal parses to a double — an exact
rational when finite, an infinity on overflow — never to `NaN`). -/
inductive JValue
  | jnull
  | jbool (b : Bool)
  | jnum (x : JsNum)
  | jstr (s : String)
  | jarr (elems : List JValue)
  | jobj (fields : List (String × JValue))

/-- JavaScript truthiness of a JSON value. -/
def JValue.truthy : JValue → Bool
  | .jnull => false
  | .jbool b => b
  | .jnum x => !x.isFalsy
  | .jstr s => s != ""
  | .jarr _ => true
  | .jobj _ => true

/-- `typeof v === 'object'` for a JSON value (`null` and arrays included). -/
def JValue.typeofObject : JValue → Bool
  | .jnull => true
  | .jarr _ => true
  | .jobj _ => true
  | _ => false

/-- Property lookup on the field list of a parsed JSON object
(`JSON.parse` keeps one entry per key). -/
def lookupField : List (String × JValue) → String → Option JValue
  | [], _ => none
  | (k, v) :: rest, key => if k = key then some v else lookupField rest key

/-- `info.expiresAt`: property access on a JSON value; `none` stands for
`undefined` (non-objects and absent keys). -/
def JValue.getField : JValue → String → Option JValue
  | .jobj fields, key => lookupField fields key
  | _, _ => none

/-- The `sb-auth-token` entry of local storage, when present, characterised
by what `session.ts` observes of the raw string `localStorage.getItem`
returns: the empty string (falsy, so `if (!raw) return false` fires and
nothing is removed), a non-empty string on which `JSON.parse` throws, or a
non-empty string parsing to a JSON value. -/
inductive StoredEntry
  | emptyStr
  | unparsable
  | value (v : JValue)

/-- Local storage, restricted to the one key `session.ts` touches; a
missing key makes `getItem` return `null`. -/
structure LocalStore where
  token : Option StoredEntry

/-- The expression `Number(info.expiresAt || 0)` of `validateStoredSession`,
relative to the runtime's number conversion `toNum`: a missing or falsy
`expiresAt` property is replaced by the number literal `0` (whose
conversion is itself), a truthy one is converted by `toNum`. -/
def expiresAtNum (toNum : JValue → JsNum) (info : JValue) : JsNum :=
  match info.getField "expiresAt" with
  | none => .num 0
  | some v => if v.truthy then toNum v else .num 0

/-- `session.ts` `validateStoredSession`, relative to the runtime's number
conversion `toNum` (JavaScript's `Number` on the property's value — kept
as a parameter so no partial re-implementation of its string grammar is
baked in), returning the boolean result and the local storage left behind:
a missing or empty-string entry returns `false` untouched
(`if (!raw) return false`); an entry that fails to parse, is falsy or not
of object type, or whose `Number(expiresAt || 0)` is falsy (`NaN` or `0`)
or lies strictly before `Date.now()`, is removed and `false` is returned;
otherwise `true` is returned and the store is untouched. -/
def validateStoredSession (toNum : JValue → JsNum) (store : LocalStore) (now : Int) :
    Bool × LocalStore :=
  match store.token with
  | none => (false, store)
  | some .emptyStr => (false, store)
  | some .unparsable => (false, { token := none })
  | some (.value info) =>
    if !(info.truthy && info.typeofObject) then (false, { token := none })
    else
      if (expiresAtNum toNum info).isFalsy || jsGtNow now (expiresAtNum toNum info) then
        (false, { token := none })
      else (true, store)

/-- `session.ts` `clearStoredSession`: removes the `sb-auth-token` entry. -/
def clearStoredSession (_store : LocalStore) : LocalStore :=
  { token := none }

/-- Stated from the claim's words, for comparison with
`validateStoredSession`: the stored object's `expiresAt` field is a
nonzero number not earlier than the current time. -/
def specFieldNonzeroNumber (info : JValue) (now : Int) : Bool :=
  match info.getField "expiresAt" with
  | some (.jnum (.num q)) => !(decide (q = 0)) && !(decide ((now : ℚ) > q))
  | _ => false

/-- The single value of the runtime's string-to-number conversion that the
counterexample below consumes, fixed by the JavaScript specification:
`Number("1e10")` is `10000000000`. -/
def toNumOneE10 : JValue → JsNum
  | .jstr "1e10" => .num 10000000000
  | _ => .nan

theorem rowMatches_true_iff (uid date : String) (r : AttendanceRow) :
    rowMatches uid date r = true ↔ r.user_id = uid ∧ r.date = date := by
  simp [rowMatches]

theorem markUpdate_keeps_key (uid date : String) (s : AttStatus) (r : AttendanceRow) :
    (if rowMatches uid date r then { r with status := s } else r).user_id = r.user_id ∧
      (if rowMatches uid date r then { r with status := s } else r).date = r.date := by
  split <;> exact ⟨rfl, rfl⟩

theorem upsertAttendance_unique {t : List AttendanceRow} (uid date : String) (s : AttStatus)
    (h : attendanceUnique t) : attendanceUnique (upsertAttendance t uid date s) := by
  unfold upsertAttendance
  split
  case isTrue hex =>
    refine List.Pairwise.map _ ?_ h
    intro a b hab
    have ha := markUpdate_keeps_key uid date s a
    have hb := markUpdate_keeps_key uid date s b
    unfold attendanceUnique at *
    rw [ha.1, ha.2, hb.1, hb.2]
    exact hab
  case isFalse hex =>
    rw [Bool.not_eq_true] at hex
    have hall := List.any_eq_false.mp hex
    unfold attendanceUnique
    rw [List.pairwise_append]
    refine ⟨h, List.pairwise_singleton _ _, ?_⟩
    intro a ha b hb
    simp only [List.mem_singleton] at hb
    subst hb
    intro hk
    exact hall a ha ((rowMatches_true_iff uid date a).mpr ⟨hk.1, hk.2⟩)

theorem upsertAttendance_length {t : List AttendanceRow} {uid date : String} (s : AttStatus)
    (hex : t.any (rowMatches uid date) = true) :
    (upsertAttendance t uid date s).length = t.length := by
  simp [upsertAttendance, hex]

theorem applyAdminMark_ok_eq {t : List AttendanceRow} {w : AttendanceWrite}
    {t' : List AttendanceRow} (h : applyAdminMark t w = Except.ok t') :
    ∃ s, attendanceStatusOfMark w.status = some s ∧
      t' = upsertAttendance t w.user_id w.date s := by
  unfold applyAdminMark at h
  cases hs : attendanceStatusOfMark w.status with
  | none => rw [hs] at h; cases h
  | some s =>
    rw [hs] at h
    refine ⟨s, rfl, ?_⟩
    by_cases hex : t.any (rowMatches w.user_id w.date) = true
    · simp only [hex, if_true, Except.ok.injEq] at h
      rw [← h]
      simp [upsertAttendance, hex]
    · rw [Bool.not_eq_true] at hex
      rw [hex] at h
      simp only [Bool.false_eq_true, if_false, Except.ok.injEq] at h
      rw [← h]
      simp [upsertAttendance, hex]

/-- C1: for every user and date there is at most one attendance record, and
marking preserves this: the student's upsert keyed on `(user_id, date)` and the
super-admin's check-then-update-or-insert both keep the `UNIQUE(user_id, date)`
invariant, and when a matching record already exists they update it without
changing the number of rows. -/
theorem attendance_per_user_date_unique
    (t : List AttendanceRow) (uid date : String) (s : AttStatus) (w : AttendanceWrite)
    (h : attendanceUnique t) :
    attendanceUnique (upsertAttendance t uid date s)
      ∧ (t.any (rowMatches uid date) = true →
          (upsertAttendance t uid date s).length = t.length)
      ∧ ∀ t', applyAdminMark t w = Except.ok t' →
          attendanceUnique t'
            ∧ (t.any (rowMatches w.user_id w.date) = true → t'.length = t.length) := by
  refine ⟨upsertAttendance_unique uid date s h, fun hex => upsertAttendance_length s hex, ?_⟩
  intro t' hok
  obtain ⟨s', _, rfl⟩ := applyAdminMark_ok_eq hok
  exact ⟨upsertAttendance_unique _ _ s' h, fun hex => upsertAttendance_length s' hex⟩

/-- Concrete check of `attendance_per_user_date_unique`: re-marking the one
existing record for `("u1", "2026-01-28")` through either operation keeps the
table unique and does not add a row. -/
theorem attendance_per_user_date_unique_witness :
    attendanceUnique (upsertAttendance [⟨"u1", "2026-01-28", .present⟩] "u1" "2026-01-28" .absent)
      ∧ (upsertAttendance [⟨"u1", "2026-01-28", .present⟩] "u1" "2026-01-28" .absent).length
          = [(⟨"u1", "2026-01-28", .present⟩ : AttendanceRow)].length
      ∧ attendanceUnique [⟨"u1", "2026-01-28", .leave⟩]
      ∧ ([(⟨"u1", "2026-01-28", .leave⟩ : AttendanceRow)]).length
          = [(⟨"u1", "2026-01-28", .present⟩ : AttendanceRow)].length := by
  have h := attendance_per_user_date_unique [⟨"u1", "2026-01-28", .present⟩] "u1" "2026-01-28"
    .absent ⟨"u1", "2026-01-28", .leave⟩ (by decide)
  have h3 := h.2.2 [⟨"u1", "2026-01-28", .leave⟩] (by rfl)
  exact ⟨h.1, h.2.1 rfl, h3.1, h3.2 rfl⟩

/-- C2: the "Mark as Not Taken" button calls the super-admin
`markAttendance` with `'not_taken'`; the payload it submits to the
`attendance` table then carries a status outside `{present, absent, leave}`,
and the database-side `attendance_status` enum rejects the write, so this
marking call can never store a record.  This contradicts the schema's (and
the claim's) three-value status set. -/
theorem markAttendance_not_taken_rejected :
    (adminMarkRequest "student-1" "2026-01-28" .not_taken).status = MarkStatus.not_taken
      ∧ attendanceStatusOfMark (adminMarkRequest "student-1" "2026-01-28" .not_taken).status = none
      ∧ applyAdminMark [] (adminMarkRequest "student-1" "2026-01-28" .not_taken)
          = Except.error () := ⟨rfl, rfl, rfl⟩

/-- C3 counterexample: the `UNIQUE(user_id, role)` constraint accepts a second
row with a different role for the same user, after which the user has two role
rows and the single-row role fetch of `useAuth.fetchUserRole` fails. -/
theorem user_roles_two_roles_counterexample :
    insertRole [⟨"u1", .student⟩] "u1" .admin
        = some [⟨"u1", .student⟩, ⟨"u1", .admin⟩]
      ∧ (([(⟨"u1", .student⟩ : RoleRow), ⟨"u1", .admin⟩]).filter
          (fun row => row.user_id = "u1")).length = 2
      ∧ fetchUserRole [⟨"u1", .student⟩, ⟨"u1", .admin⟩] "u1" = none := by
  exact ⟨rfl, rfl, rfl⟩

theorem fetchUserRole_isSome_iff (t : List RoleRow) (uid : String) :
    (fetchUserRole t uid).isSome = true ↔
      (t.filter (fun row => row.user_id = uid)).length = 1 := by
  unfold fetchUserRole
  cases hf : t.filter (fun row => row.user_id = uid) with
  | nil => simp
  | cons a rest =>
    cases rest with
    | nil => simp
    | cons b rest' => simp

/-- C3 amended: the `user_roles` constraint is uniqueness of `(user_id, role)`
pairs, not of user ids: every insertion preserves pair-uniqueness (and a
duplicate pair is rejected), but a user may hold rows with two different
roles, and the client's single-row role fetch succeeds exactly when the user
has exactly one role row. -/
theorem user_roles_pair_unique (t : List RoleRow) (uid : String) (r : AppRole)
    (h : roleRowsUnique t) :
    (∀ t', insertRole t uid r = some t' → roleRowsUnique t')
      ∧ (t.any (fun row => row.user_id = uid && row.role = r) = true →
          insertRole t uid r = none)
      ∧ ((fetchUserRole t uid).isSome = true ↔
          (t.filter (fun row => row.user_id = uid)).length = 1) := by
  refine ⟨?_, ?_, fetchUserRole_isSome_iff t uid⟩
  · intro t' hins
    unfold insertRole at hins
    by_cases hdup : t.any (fun row => row.user_id = uid && row.role = r) = true
    · rw [if_pos hdup] at hins
      cases hins
    · rw [if_neg hdup] at hins
      rw [Bool.not_eq_true] at hdup
      have hall := List.any_eq_false.mp hdup
      cases hins
      unfold roleRowsUnique
      rw [List.pairwise_append]
      refine ⟨h, List.pairwise_singleton _ _, ?_⟩
      intro a ha b hb
      simp only [List.mem_singleton] at hb
      subst hb
      intro hk
      exact hall a ha (by simp [hk.1, hk.2])
  · intro hdup
    unfold insertRole
    rw [if_pos hdup]

/-- Concrete check of `user_roles_pair_unique`: inserting a second role for a
fresh user keeps `(user_id, role)` pairs unique, re-inserting an existing pair
is refused, and the single-row fetch succeeds on a user with one role row. -/
theorem user_roles_pair_unique_witness :
    roleRowsUnique [⟨"u1", .student⟩, ⟨"u2", .admin⟩]
      ∧ insertRole [⟨"u1", .student⟩] "u1" .student = none
      ∧ (fetchUserRole [⟨"u1", .student⟩] "u1").isSome = true := by
  have h1 := user_roles_pair_unique [⟨"u1", .student⟩] "u2" .admin (by decide)
  have h2 := user_roles_pair_unique [⟨"u1", .student⟩] "u1" .student (by decide)
  exact ⟨h1.1 [⟨"u1", .student⟩, ⟨"u2", .admin⟩] rfl, h2.2.1 rfl,
    (h2.2.2.mpr (by decide))⟩

/-- C4: for every authenticated role, each role-gated page renders its content
exactly for its permitted roles and redirects to `/dashboard` otherwise:
Manage Users and Manage Attendance for `super_admin` only, Reports for
`admin` or `super_admin`, Student Attendance for `student` only. -/
theorem role_gated_pages (r : AppRole) :
    (manageUsersView (some r) = .content ↔ r = .super_admin)
      ∧ (manageUsersView (some r) = .redirectDashboard ↔ ¬r = .super_admin)
      ∧ (manageAttendanceView (some r) = .content ↔ r = .super_admin)
      ∧ (manageAttendanceView (some r) = .redirectDashboard ↔ ¬r = .super_admin)
      ∧ (reportsView (some r) = .content ↔ (r = .admin ∨ r = .super_admin))
      ∧ (reportsView (some r) = .redirectDashboard ↔ ¬(r = .admin ∨ r = .super_admin))
      ∧ (studentAttendanceView (some r) = .content ↔ r = .student)
      ∧ (studentAttendanceView (some r) = .redirectDashboard ↔ ¬r = .student) := by
  cases r <;> simp [manageUsersView, manageAttendanceView, reportsView, studentAttendanceView]

/-- C5: once a student's attendance for today is set to `s`, every option
button for a status other than `s` is disabled and `oneTimeFillPresent`
refuses to run, so the student UI cannot change a marked record to a
different status; the database update policy, by contrast, allows a student
to update any of their own rows — the predicate never looks at the stored
status — so the lock lives only in the UI layer. -/
theorem marked_student_ui_locked (loading : Option AttStatus) (s opt : AttStatus)
    (hasUser : Bool) (row : AttendanceRow) (hne : opt ≠ s) :
    attendanceOptionDisabled loading (some s) opt = true
      ∧ oneTimeFillPresent hasUser (some s) = .refused
      ∧ studentUpdatePolicy row.user_id row = true := by
  refine ⟨?_, ?_, ?_⟩
  · unfold attendanceOptionDisabled
    have : (some s != some opt) = true := by
      simp only [bne_iff_ne, ne_eq, Option.some.injEq]
      exact fun h => hne h.symm
    simp [this]
  · unfold oneTimeFillPresent
    simp
  · simp [studentUpdatePolicy]

/-- Concrete check of `marked_student_ui_locked`: with today marked
`present`, the `absent` button is disabled, the one-time fill refuses, and
the update policy still admits the student's own row. -/
theorem marked_student_ui_locked_witness :
    attendanceOptionDisabled none (some .present) .absent = true
      ∧ oneTimeFillPresent true (some .present) = .refused
      ∧ studentUpdatePolicy "u1" ⟨"u1", "2026-01-28", .present⟩ = true :=
  marked_student_ui_locked none .present .absent true ⟨"u1", "2026-01-28", .present⟩
    (by decide)

/-- C6: when the database call fails, both marking handlers show a
destructive toast and leave the locally held UI state unchanged — the
super-admin handler returns the `students` list untouched, the student
handler leaves `todayStatus` as it was — while `todayStatus` is updated
exactly on success. -/
theorem error_leaves_ui_state_unchanged (students : List StudentEntry)
    (studentId : String) (ms : MarkStatus) (today : Option AttStatus) (s : AttStatus) :
    (adminMarkAttendance students studentId ms .failed).1 = students
      ∧ (adminMarkAttendance students studentId ms .failed).2.destructive = true
      ∧ (studentMarkAttendance today s .failed).1 = today
      ∧ (studentMarkAttendance today s .failed).2.destructive = true
      ∧ (studentMarkAttendance today s .ok).1 = some s
      ∧ (studentMarkAttendance today s .ok).2.destructive = false :=
  ⟨rfl, rfl, rfl, rfl, rfl, rfl⟩

/-- C7: the exported CSV is the header `Name,Email,Status` followed by one
line per fetched record — full name, email and status joined by commas, in
list order — with lines joined by newlines, and the download is offered
under `attendance-<selected date>.csv`. -/
theorem downloadReport_csv_matches (att : List ReportRow) (dateStr : String) :
    downloadReportCsv att = csvSpec att
      ∧ downloadReportFilename dateStr = "attendance-" ++ dateStr ++ ".csv" := by
  constructor
  · show jsJoin "\n" (((["Name", "Email", "Status"] :: att.map fun a =>
        [a.full_name, a.email, a.status]).map (jsJoin ","))) = csvSpec att
    rw [List.map_cons, List.map_map]
    show ((att.map _).foldl (fun acc y => acc ++ "\n" ++ y) "Name,Email,Status") = csvSpec att
    rw [List.foldl_map]
    rfl
  · rfl

theorem statusOrder_eq_zero_iff (s : String) : statusOrder s = 0 ↔ s = "absent" := by
  unfold statusOrder
  split_ifs <;> simp_all

theorem statusOrder_le_one_iff (s : String) :
    statusOrder s ≤ 1 ↔ (s = "absent" ∨ s = "present") := by
  unfold statusOrder
  split_ifs <;> simp_all

theorem statusOrder_le_two_iff (s : String) :
    statusOrder s ≤ 2 ↔ (s = "absent" ∨ s = "present" ∨ s = "leave") := by
  unfold statusOrder
  split_ifs <;> simp_all

theorem statusOrder_le_interp {a b : String} (h : statusOrder a ≤ statusOrder b) :
    (b = "absent" → a = "absent")
      ∧ (b = "present" → a = "absent" ∨ a = "present")
      ∧ (b = "leave" → a = "absent" ∨ a = "present" ∨ a = "leave") := by
  refine ⟨fun hb => ?_, fun hb => ?_, fun hb => ?_⟩ <;> subst hb
  · have hb0 : statusOrder "absent" = 0 := rfl
    rw [hb0, Nat.le_zero] at h
    exact (statusOrder_eq_zero_iff a).mp h
  · have hb1 : statusOrder "present" = 1 := rfl
    rw [hb1] at h
    exact (statusOrder_le_one_iff a).mp h
  · have hb2 : statusOrder "leave" = 2 := rfl
    rw [hb2] at h
    exact (statusOrder_le_two_iff a).mp h

/-- C8: the displayed and exported report list is the fetched list reordered
(a permutation) so that the `statusOrder` keys are nondecreasing: every
`absent` record precedes every `present` record, which precedes every
`leave` record, and records with any other status come last. -/
theorem report_sorted_by_status (l : List ReportRow) :
    List.Perm (sortReports l) l
      ∧ (sortReports l).Pairwise (fun a b => statusOrder a.status ≤ statusOrder b.status)
      ∧ (sortReports l).Pairwise (fun a b =>
          (b.status = "absent" → a.status = "absent")
            ∧ (b.status = "present" → a.status = "absent" ∨ a.status = "present")
            ∧ (b.status = "leave" →
                a.status = "absent" ∨ a.status = "present" ∨ a.status = "leave")) := by
  have hsorted :
      (sortReports l).Pairwise (fun a b => statusOrder a.status ≤ statusOrder b.status) := by
    unfold sortReports
    have h := @List.sorted_mergeSort ReportRow
      (fun a b => decide (statusOrder a.status ≤ statusOrder b.status))
      (fun a b c hab hbc => by
        simp only [decide_eq_true_eq] at hab hbc ⊢
        exact Nat.le_trans hab hbc)
      (fun a b => by
        simp only [Bool.or_eq_true, decide_eq_true_eq]
        exact Nat.le_total _ _) l
    exact h.imp (fun hab => by simpa using hab)
  refine ⟨?_, hsorted, hsorted.imp fun hab => statusOrder_le_interp hab⟩
  unfold sortReports
  exact List.mergeSort_perm l _

/-- C9: a fetched student is in the not-marked list exactly when no fetched
attendance record for the selected date carries their user id, so each
fetched student lands in exactly one of the marked set and the not-marked
list. -/
theorem not_marked_partition (sd : List StudentRef) (ad : List AttendanceFetched)
    (s : StudentRef) :
    (s ∈ notMarkedStudents sd ad ↔ (s ∈ sd ∧ ∀ a ∈ ad, ¬a.user_id = s.user_id))
      ∧ (s ∈ sd →
          ((∃ a ∈ ad, a.user_id = s.user_id) ↔ s ∉ notMarkedStudents sd ad)) := by
  constructor
  · simp [notMarkedStudents, List.mem_filter]
  · intro hs
    simp [notMarkedStudents, List.mem_filter, hs]

/-- Concrete check of `not_marked_partition`: with no attendance records
fetched, the one student is in the not-marked list, and the marked/not-marked
split is exclusive for them. -/
theorem not_marked_partition_witness :
    (⟨"u1", "Asha", "a@example.com"⟩ : StudentRef)
        ∈ notMarkedStudents [⟨"u1", "Asha", "a@example.com"⟩] []
      ∧ ((∃ a ∈ ([] : List AttendanceFetched), a.user_id = "u1")
          ↔ (⟨"u1", "Asha", "a@example.com"⟩ : StudentRef)
              ∉ notMarkedStudents [⟨"u1", "Asha", "a@example.com"⟩] []) := by
  have h := not_marked_partition [⟨"u1", "Asha", "a@example.com"⟩] []
    ⟨"u1", "Asha", "a@example.com"⟩
  exact ⟨h.1.mpr ⟨by simp, by simp⟩, h.2 (by simp)⟩

/-- C10 counterexample: (a) a present empty-string `sb-auth-token` entry
makes `validateStoredSession` return `false` while the entry stays in
local storage (`if (!raw) return false` removes nothing), refuting
"whenever it returns false … the stored entry has been removed"; (b) an
entry whose `expiresAt` field is the numeric *string* `"1e10"` validates
as `true` at time `5` — `Number("1e10")` is `10000000000` — although the
field is not a number, refuting the "exactly when" as stated. -/
theorem validateStoredSession_claim_refuted :
    (validateStoredSession toNumOneE10 ⟨some .emptyStr⟩ 5).1 = false
      ∧ (validateStoredSession toNumOneE10 ⟨some .emptyStr⟩ 5).2.token = some .emptyStr
      ∧ (validateStoredSession toNumOneE10
            ⟨some (.value (.jobj [("expiresAt", .jstr "1e10")]))⟩ 5).1 = true
      ∧ specFieldNonzeroNumber (.jobj [("expiresAt", .jstr "1e10")]) 5 = false := by
  refine ⟨rfl, rfl, ?_, rfl⟩
  decide

/-- C10 amended: for every number conversion the runtime may supply,
`validateStoredSession` returns `true` exactly when the stored entry is a
present non-empty string parsing to a truthy value of object type whose
`expiresAt` field — missing or falsy fields defaulting to `0` — converts
to a number that is neither `NaN` nor zero and that the current time does
not exceed; whenever it returns `false`, the `sb-auth-token` key is absent
from local storage afterwards, except that a present empty-string entry is
rejected and left in place. -/
theorem validateStoredSession_exact (toNum : JValue → JsNum) (store : LocalStore)
    (now : Int) :
    ((validateStoredSession toNum store now).1 = true ↔
      ∃ info, store.token = some (.value info)
        ∧ info.truthy = true ∧ info.typeofObject = true
        ∧ (expiresAtNum toNum info).isFalsy = false
        ∧ jsGtNow now (expiresAtNum toNum info) = false)
      ∧ ((validateStoredSession toNum store now).1 = false →
          (validateStoredSession toNum store now).2.token = none
            ∨ (store.token = some .emptyStr
                ∧ (validateStoredSession toNum store now).2 = store)) := by
  obtain ⟨tok⟩ := store
  constructor
  · constructor
    · intro h
      cases tok with
      | none => simp [validateStoredSession] at h
      | some entry =>
        cases entry with
        | emptyStr => simp [validateStoredSession] at h
        | unparsable => simp [validateStoredSession] at h
        | value info =>
          simp only [validateStoredSession] at h
          by_cases hobj : (info.truthy && info.typeofObject) = true
          · simp only [hobj, Bool.not_true, Bool.false_eq_true, if_false] at h
            rw [Bool.and_eq_true] at hobj
            by_cases hcond :
                ((expiresAtNum toNum info).isFalsy
                  || jsGtNow now (expiresAtNum toNum info)) = true
            · rw [hcond] at h
              simp at h
            · rw [Bool.not_eq_true, Bool.or_eq_false_iff] at hcond
              exact ⟨info, rfl, hobj.1, hobj.2, hcond.1, hcond.2⟩
          · rw [Bool.not_eq_true] at hobj
            rw [hobj] at h
            simp at h
    · rintro ⟨info, hinfo, ht, hty, hfal, hgt⟩
      cases hinfo
      simp [validateStoredSession, ht, hty, hfal, hgt]
  · intro hf
    cases tok with
    | none => exact Or.inl rfl
    | some entry =>
      cases entry with
      | emptyStr => exact Or.inr ⟨rfl, rfl⟩
      | unparsable => exact Or.inl rfl
      | value info =>
        refine Or.inl ?_
        simp only [validateStoredSession] at hf ⊢
        by_cases hobj : (info.truthy && info.typeofObject) = true
        · simp only [hobj, Bool.not_true, Bool.false_eq_true, if_false] at hf ⊢
          by_cases hcond :
              ((expiresAtNum toNum info).isFalsy
                || jsGtNow now (expiresAtNum toNum info)) = true
          · rw [hcond]
            rfl
          · rw [Bool.not_eq_true] at hcond
            rw [hcond] at hf
            simp at hf
        · rw [Bool.not_eq_true] at hobj
          rw [hobj]
          rfl

/-- Concrete check of `validateStoredSession_exact`: at a present
empty-string entry the `false` result leaves the entry in place (the
second disjunct of the removal clause). -/
theorem validateStoredSession_exact_witness :
    (validateStoredSession toNumOneE10 ⟨some .emptyStr⟩ 5).2.token = none
      ∨ ((⟨some .emptyStr⟩ : LocalStore).token = some StoredEntry.emptyStr
          ∧ (validateStoredSession toNumOneE10 ⟨some .emptyStr⟩ 5).2
              = (⟨some .emptyStr⟩ : LocalStore)) :=
  (validateStoredSession_exact toNumOneE10 ⟨some .emptyStr⟩ 5).2 rfl

end Hostel
